import Mathlib

/-!
Verification of the python-ads binary metadata parser and type-synthesis core.

This file gives a shallow embedding, in Lean, of the parts of the
`ads` package (`adssymbols.py`, `nonzerobasedarray.py`) that the
specification's claims are about, and proves or refutes each claim.

Conventions of the embedding:
* Python byte strings are `List Nat` (one entry per byte, values < 256 are
  not enforced where irrelevant).
* Python `int` is `Int`; container sizes and byte counts are `Nat`.
* Fallible Python code (code that can raise) is modelled with `Except`,
  with one error constructor per distinct Python exception that the
  modelled paths can raise.
* Stateful code (`AdsVariablesDefinition.getCtype` mutates the memo table
  `self.ctypes`) is modelled with explicit state passing.
* Unbounded recursion (`getCtype` can recurse through the type table) is
  modelled with explicit fuel; running out of fuel models Python's
  `RecursionError` and is one of the error constructors.
-/

/-! ## NonzeroBasedArray (`ads/nonzerobasedarray.py`)

`NonzeroBasedArray.create(ctype, lbound, length)` produces a ctypes array
class whose valid index range is `[lbound, lbound + length)`.  Indexing is
`__getitem__`, which calls `__convertindex__` and then the underlying
`ctypes.Array` item access; we model the element at zero-based position
`p` by the position `p` itself. -/

/-- Error raised by `NonzeroBasedArray` index conversion and by the
underlying `ctypes.Array` access (both are `IndexError` in Python). -/
inductive NZErr where
  | indexError
  deriving DecidableEq, Repr

/-- Model of the scalar branch of `NonzeroBasedArray.__convertindex__`
(`nonzerobasedarray.py` lines 66-71): shift by `-lbound` and raise
`IndexError` when the shifted index is negative.  A too-high shifted index
is deliberately left to the underlying `ctypes.Array`. -/
def convertIndexInt (lbound : Int) (i : Int) : Except NZErr Int :=
  let s := i - lbound
  if s < 0 then .error .indexError else .ok s

/-- Model of `NonzeroBasedArray.__getitem__` for an integer index:
`__convertindex__` followed by `ctypes.Array.__getitem__`, which raises
`IndexError` when the (non-negative) index is not below the array length.
The result is the zero-based element position addressed. -/
def nzGetScalar (lbound : Int) (length : Nat) (i : Int) : Except NZErr Nat :=
  match convertIndexInt lbound i with
  | .error e => .error e
  | .ok s => if s < (length : Int) then .ok s.toNat else .error .indexError

/-- Model of the slice branch of `NonzeroBasedArray.__convertindex__`
(`nonzerobasedarray.py` lines 73-87): each present bound is shifted by
`-lbound` and a negative shifted bound raises `IndexError`. -/
def convertIndexSlice (lbound : Int) (start stop : Option Int) :
    Except NZErr (Option Int × Option Int) :=
  match start with
  | some a =>
    let a' := a - lbound
    if a' < 0 then .error .indexError
    else
      match stop with
      | some b =>
        let b' := b - lbound
        if b' < 0 then .error .indexError else .ok (some a', some b')
      | none => .ok (some a', none)
  | none =>
    match stop with
    | some b =>
      let b' := b - lbound
      if b' < 0 then .error .indexError else .ok (none, some b')
    | none => .ok (none, none)

/-- Model of `NonzeroBasedArray.__getitem__` for a slice with the default
unit step: after `__convertindex__`, the underlying `ctypes.Array` slice
clamps the (non-negative) bounds to the array length and returns the
elements at positions `[start', stop')`.  The result lists the zero-based
positions addressed. -/
def nzGetSlice (lbound : Int) (length : Nat) (start stop : Option Int) :
    Except NZErr (List Nat) :=
  match convertIndexSlice lbound start stop with
  | .error e => .error e
  | .ok (a?, b?) =>
    let a := match a? with | some a => min a.toNat length | none => 0
    let b := match b? with | some b => min b.toNat length | none => length
    .ok (List.range' a (b - a))

/-- Model of `NonzeroBasedArray.__iter__` (`nonzerobasedarray.py` lines
93-103): starting at `lbound`, yield `self[i]` and increment until the
access raises `IndexError`, which ends the generator (the source's
`raise StopIteration` inside the generator body, the generator-exit idiom
of the Python 3.6 version the package declares).  Modelled with fuel; the
returned flag is `true` when the loop exited by itself and `false` when
the fuel ran out first. -/
def nzIter (lbound : Int) (length : Nat) : Nat → Int → List Nat × Bool
  | 0, _ => ([], false)
  | fuel + 1, i =>
    match nzGetScalar lbound length i with
    | .error _ => ([], true)
    | .ok p =>
      let r := nzIter lbound length fuel (i + 1)
      (p :: r.1, r.2)

/-! ## ctypes layouts

The results of layout synthesis are ctypes classes.  We model the ctypes
classes that `adssymbols.py` can produce, together with ctypes'
`sizeof`/alignment computation (structures are created with `_pack_ = 8`,
so every field alignment is capped at 8). -/

mutual
/-- Model of the ctypes classes produced by `AdsVariablesDefinition.getCtype`:
primitive ctypes (`basictypes` values and `c_void_p`), `PLCString.create(n)`
(a structure holding `c_char * (n+1)`), the `Dummy` byte-array classes,
ordinary ctypes arrays `elements * ctype`, `NonzeroBasedArray.create`
classes, and `Structure` subclasses with `_pack_ = 8`. -/
inductive Ctype where
  | prim (cname : String) (size align : Nat)
  | plcString (n : Nat)
  | dummy (n : Nat)
  | carray (n : Nat) (elem : Ctype)
  | nzarray (lbound : Int) (n : Nat) (elem : Ctype)
  | cstruct (sname : String) (fields : Fields)
/-- Field list of a modelled ctypes `Structure` (name/ctype pairs in
declaration order; padding fields carry the empty name, as in the source). -/
inductive Fields where
  | nil
  | cons (fname : String) (ftype : Ctype) (rest : Fields)
end

/-- Round `o` up to the next multiple of `a` (ctypes offset alignment). -/
def roundUp (o a : Nat) : Nat := ((o + a - 1) / a) * a

mutual
/-- Model of `ctypes.sizeof` on the modelled classes.  `PLCString.create(n)`
holds a single `c_char * (n+1)` field; arrays multiply; structures follow
the ctypes layout algorithm with `_pack_ = 8`. -/
def sizeofC : Ctype → Nat
  | .prim _ s _ => s
  | .plcString n => n + 1
  | .dummy n => n
  | .carray n e => n * sizeofC e
  | .nzarray _ n e => n * sizeofC e
  | .cstruct _ fs => roundUp (structEnd fs 0) (fieldsAlign fs)
/-- Offset reached after laying out the given fields starting at offset
`o`, each field placed at its `_pack_`-capped alignment. -/
def structEnd : Fields → Nat → Nat
  | .nil, o => o
  | .cons _ c rest, o => structEnd rest (roundUp o (min 8 (alignofC c)) + sizeofC c)
/-- Model of ctypes' alignment of the modelled classes. -/
def alignofC : Ctype → Nat
  | .prim _ _ a => a
  | .plcString _ => 1
  | .dummy _ => 1
  | .carray _ e => alignofC e
  | .nzarray _ _ e => alignofC e
  | .cstruct _ fs => fieldsAlign fs
/-- Alignment of a modelled structure: maximum of the `_pack_`-capped
field alignments (1 when there are no fields). -/
def fieldsAlign : Fields → Nat
  | .nil => 1
  | .cons _ c rest => max (min 8 (alignofC c)) (fieldsAlign rest)
end

/-- Append on modelled field lists. -/
def Fields.append : Fields → Fields → Fields
  | .nil, gs => gs
  | .cons n c rest, gs => .cons n c (rest.append gs)

/-- The `c_char` ctype. -/
def cChar : Ctype := .prim "c_char" 1 1

/-- The `c_char * n` ctype used for anonymous padding fields and for the
unknown-shape fallback. -/
def charArray (n : Nat) : Ctype := .carray n cChar

/-- The `c_void_p` ctype (64-bit platform). -/
def cVoidP : Ctype := .prim "c_void_p" 8 8

/-! ## The data-type records

`AdsDatatypeEntry` objects as used by `getCtype` and `Variable`: we model
the fields that the synthesis and navigation code reads (`name`, `type`,
`size`, `offs`, the array dimension list and the sub-item list).  The
remaining decoded header fields (version, hashes, flags, comment, ...) are
never read by the modelled operations and are omitted.  `subItems` is the
insertion-ordered member list (`OrderedDict` values in the source). -/
inductive AdsDatatypeEntry where
  | mk (name typeRef : String) (size offs : Nat)
       (array : List (Int × Nat)) (subItems : List AdsDatatypeEntry)

/-- Record name (`self.name`). -/
def AdsDatatypeEntry.name : AdsDatatypeEntry → String
  | .mk n _ _ _ _ _ => n

/-- Referenced type name (`self.type`, empty string when absent). -/
def AdsDatatypeEntry.typeRef : AdsDatatypeEntry → String
  | .mk _ t _ _ _ _ => t

/-- Declared byte size (`self.size`). -/
def AdsDatatypeEntry.size : AdsDatatypeEntry → Nat
  | .mk _ _ s _ _ _ => s

/-- Declared member offset (`self.offs`). -/
def AdsDatatypeEntry.offs : AdsDatatypeEntry → Nat
  | .mk _ _ _ o _ _ => o

/-- Array dimension list of `(lowerBound, elementCount)` pairs (`self.array`). -/
def AdsDatatypeEntry.array : AdsDatatypeEntry → List (Int × Nat)
  | .mk _ _ _ _ a _ => a

/-- Ordered sub-item records (`self.subItems.values()`). -/
def AdsDatatypeEntry.subItems : AdsDatatypeEntry → List AdsDatatypeEntry
  | .mk _ _ _ _ _ s => s

/-- First-match lookup in an association list keyed by `String`
(models Python `dict` reads for tables whose keys are unique). -/
def lookupA {α : Type} : List (String × α) → String → Option α
  | [], _ => none
  | (k, v) :: rest, key => if k = key then some v else lookupA rest key

/-- Update-or-append on an association list (models Python `dict` writes). -/
def insertA {α : Type} : List (String × α) → String → α → List (String × α)
  | [], key, v => [(key, v)]
  | (k, w) :: rest, key, v =>
    if k = key then (k, v) :: rest else (k, w) :: insertA rest key v

/-- The `basictypes` table of `adssymbols.py` (name to ctypes class), which
seeds `self.ctypes` in `AdsVariablesDefinition.__init__`. -/
def basicCtypes : List (String × Ctype) := [
  ("BOOL", .prim "c_bool" 1 1),
  ("BIT", .prim "c_bool" 1 1),
  ("BYTE", .prim "c_byte" 1 1),
  ("DATE", .prim "c_int32" 4 4),
  ("DINT", .prim "c_int32" 4 4),
  ("DT", .prim "c_int32" 4 4),
  ("DWORD", .prim "c_int32" 4 4),
  ("INT", .prim "c_int16" 2 2),
  ("LREAL", .prim "c_double" 8 8),
  ("REAL", .prim "c_float" 4 4),
  ("SINT", .prim "c_int8" 1 1),
  ("STRING", .prim "c_char" 1 1),
  ("TIME", .prim "c_int32" 4 4),
  ("TOD", .prim "c_int32" 4 4),
  ("UDINT", .prim "c_uint32" 4 4),
  ("UINT", .prim "c_uint16" 2 2),
  ("USINT", .prim "c_uint8" 1 1),
  ("WORD", .prim "c_int16" 2 2),
  ("LINT", .prim "c_int64" 8 8),
  ("ULINT", .prim "c_uint64" 8 8),
  ("PVOID", .prim "c_void_p" 8 8),
  ("OTCID", .prim "c_int32" 4 4)]

/-- Mutable state of `AdsVariablesDefinition` that `getCtype` touches: the
memo table `self.ctypes`, seeded with `basictypes.copy()`. -/
structure St where
  ctypes : List (String × Ctype)

/-- Character-list test that `cs` starts with `pre` (used instead of the
`String` library functions so that concrete terms reduce). -/
def strStartsWithL : List Char → List Char → Bool
  | _, [] => true
  | [], _ :: _ => false
  | c :: cs, d :: ds => c == d && strStartsWithL cs ds

/-- Test that string `s` starts with `pre`. -/
def strStartsWith (s pre : String) : Bool := strStartsWithL s.data pre.data

/-- Decimal value of a digit list. -/
def digitsVal : List Char → Nat :=
  List.foldl (fun a c => a * 10 + (c.toNat - 48)) 0

/-- Model of `re.match(r'STRING\((\d+)\)', dtypename)`: an anchored prefix
match, returning the captured digit group.  (As with `re.match`, trailing
characters after the closing parenthesis are not rejected.) -/
def plcStringMatch (s : String) : Option Nat :=
  let cs := s.data
  if strStartsWithL cs "STRING(".data then
    let rest := cs.drop 7
    let digits := rest.takeWhile Char.isDigit
    if digits.length > 0 && strStartsWithL (rest.drop digits.length) [')'] then
      some (digitsVal digits)
    else none
  else none

/-- Errors that `getCtype` can raise: `AssertionError` (the two `assert`
statements), `ZeroDivisionError` (`divmod` by a zero element-count
product), `TypeError` (a `None` entry in a `_fields_` list), and
`RecursionError` (modelled by fuel exhaustion). -/
inductive CtErr where
  | assertErr
  | zeroDivErr
  | typeErr
  | fuelOut
  deriving DecidableEq, Repr

/-- The `arraysize` accumulation in `getCtype`: product of the element
counts of all declared dimensions (1 when there are none). -/
def arrProd : List (Int × Nat) → Nat
  | [] => 1
  | d :: rest => d.2 * arrProd rest

/-- The dimension-wrapping loop at the end of `getCtype`
(`for lbound, elements in reversed(dtype.array)`): wrap the element ctype
one dimension at a time, last declared dimension innermost, using a plain
ctypes array when the lower bound is 0 and a `NonzeroBasedArray` class
otherwise. -/
def wrapDims (dims : List (Int × Nat)) (c : Ctype) : Ctype :=
  dims.reverse.foldl
    (fun acc d => if d.1 = 0 then .carray d.2 acc else .nzarray d.1 d.2 acc) c

/-- The shared tail of `getCtype` for a name resolved through a type
record: wrap the synthesized ctype in the declared array dimensions, then
replace it by a `Dummy` of the declared size when `sizeof` disagrees with
the record's declared size, and finally memoize it under the requested
name (`self.ctypes[dtypename] = ctype`). -/
def getCtypeFinish (dtypename : String) (d : AdsDatatypeEntry) (c : Ctype)
    (st : St) : Option Ctype × St :=
  let w := wrapDims d.array c
  let f := if d.size ≠ sizeofC w then Ctype.dummy d.size else w
  (some f, ⟨insertA st.ctypes dtypename f⟩)

mutual
/-- Model of `AdsVariablesDefinition.getCtype(dtypename, size=None)`
(`adssymbols.py` lines 617-699).  `dtypes` is the immutable name-to-record
table, `st` the memo table state.  The `Option Ctype` result models the
`return None` for an unknown name with no size hint. -/
def getCtype (dtypes : List (String × AdsDatatypeEntry)) :
    Nat → St → String → Option Nat → Except CtErr (Option Ctype × St)
  | 0, _, _, _ => .error .fuelOut
  | fuel + 1, st, dtypename, sizeHint =>
    match lookupA st.ctypes dtypename with
    | some c => .ok (some c, st)
    | none =>
      match plcStringMatch dtypename with
      | some len =>
        let c := Ctype.plcString len
        .ok (some c, ⟨insertA st.ctypes dtypename c⟩)
      | none =>
        match lookupA dtypes dtypename with
        | none =>
          match sizeHint with
          | none => .ok (none, st)
          | some s => .ok (some (.dummy s), st)
        | some d =>
          if strStartsWith d.name "POINTER TO " then
            .ok (getCtypeFinish dtypename d cVoidP st)
          else if d.typeRef ≠ "" ∧ d.subItems.isEmpty then
            let arraysize := arrProd d.array
            if arraysize = 0 then .error .zeroDivErr
            else if d.size % arraysize ≠ 0 then .error .assertErr
            else
              match getCtype dtypes fuel st d.typeRef (some (d.size / arraysize)) with
              | .error e => .error e
              | .ok (none, _) => .error .assertErr
              | .ok (some c, st') => .ok (getCtypeFinish dtypename d c st')
          else if ¬ d.subItems.isEmpty ∧ d.typeRef = "" then
            match structFieldsLoop dtypes fuel d.subItems 0 st with
            | .error e => .error e
            | .ok (fs, o, st') =>
              let fs' := if o < d.size then
                  fs.append (.cons "" (charArray (d.size - o)) .nil)
                else fs
              .ok (getCtypeFinish dtypename d (.cstruct d.name fs') st')
          else
            .ok (getCtypeFinish dtypename d (charArray d.size) st)
/-- Model of the sub-item loop in the structure branch of `getCtype`
(`adssymbols.py` lines 658-669): walk the members with a byte cursor `o`
starting at 0; a member whose offset exceeds the cursor gets an anonymous
`c_char * gap` padding field first; a member at the cursor is resolved
recursively with its declared size as hint and advances the cursor by its
declared size; a member below the cursor (union layout) is skipped.
Returns the fields, the final cursor, and the threaded memo state.
(The fuel is decremented once per member so that the mutual recursion
with `getCtype` is structural; fuel exhaustion still models only
Python's `RecursionError`, and every claim quantifies the fuel or picks
it large enough.) -/
def structFieldsLoop (dtypes : List (String × AdsDatatypeEntry)) :
    Nat → List AdsDatatypeEntry → Nat → St → Except CtErr (Fields × Nat × St)
  | 0, _, _, _ => .error .fuelOut
  | _ + 1, [], o, st => .ok (.nil, o, st)
  | fuel + 1, s :: rest, o, st =>
    if o < s.offs then
      match getCtype dtypes fuel st s.typeRef (some s.size) with
      | .error e => .error e
      | .ok (none, _) => .error .typeErr
      | .ok (some c, st₁) =>
        match structFieldsLoop dtypes fuel rest (s.offs + s.size) st₁ with
        | .error e => .error e
        | .ok (fs, o₂, st₂) =>
          .ok (.cons "" (charArray (s.offs - o)) (.cons s.name c fs), o₂, st₂)
    else if s.offs = o then
      match getCtype dtypes fuel st s.typeRef (some s.size) with
      | .error e => .error e
      | .ok (none, _) => .error .typeErr
      | .ok (some c, st₁) =>
        match structFieldsLoop dtypes fuel rest (o + s.size) st₁ with
        | .error e => .error e
        | .ok (fs, o₂, st₂) => .ok (.cons s.name c fs, o₂, st₂)
    else
      structFieldsLoop dtypes fuel rest o st
end

/-! ## Variable navigation (`Variable.__getitem__`, `__getattr__`, `__iter__`)

A `Variable` carries a resolved `AdsDatatypeEntry` (or none, for basic and
unknown types) and a byte offset.  Navigation produces child variables; we
model a child by its constructor arguments: the name passed, the datatype
argument (a type-name string or a nested record), and the byte offset. -/

/-- The `datatype` constructor argument of a child `Variable`: either a
type-name string to be looked up, or a nested `AdsDatatypeEntry`. -/
inductive DtypeRef where
  | byName (s : String)
  | byEntry (e : AdsDatatypeEntry)

/-- Constructor arguments of a child `Variable` produced by navigation:
the `name`, the `datatype` argument and the byte `offset`. -/
structure ChildVar where
  name : String
  dtype : DtypeRef
  offset : Int

/-- Python exceptions raised by the modelled `Variable` operations. -/
inductive VErr where
  | indexErrNoArray
  | indexErrDims
  | indexErrRange
  | assertFail
  | notImplemented
  | notIterable
  | attrError
  deriving DecidableEq, Repr

/-- Whether a `Variable` operation error is a Python `IndexError`. -/
def VErr.isIndexError : VErr → Bool
  | .indexErrNoArray | .indexErrDims | .indexErrRange => true
  | _ => false

/-- The per-dimension loop of `Variable.__getitem__` (`adssymbols.py`
lines 463-471) over the zipped index components and dimensions: check each
component against `[lower, lower + elements)`, and accumulate the linear
index (Horner style) and the total element count. -/
def linearFold : List (Int × (Int × Nat)) → Int → Nat → Except VErr (Int × Nat)
  | [], lin, n => .ok (lin, n)
  | (i, (lower, elements)) :: rest, lin, n =>
    if i < lower ∨ lower + (elements : Int) ≤ i then .error .indexErrRange
    else linearFold rest (lin * elements + (i - lower)) (n * elements)

/-- The `'[%s]' % ','.join(str(i) for i in idx)` index string. -/
def fmtIdx (idx : List Int) : String :=
  "[" ++ String.intercalate "," (idx.map toString) ++ "]"

/-- Model of `Variable.__getitem__` (`adssymbols.py` lines 433-487) for a
variable whose datatype record is `d`, at byte offset `po`, applied to an
index tuple (a scalar index `i` is the one-tuple `[i]`; the slice branch,
which performs a raw transport read, is outside this model).  Mirrors the
source order: no-array check, dimension-count check, per-component range
check, the `size % nItems == 0` assertion, the unsupported
composite-element check, then the child construction. -/
def varGetitem (d : AdsDatatypeEntry) (po : Int) (idx : List Int) :
    Except VErr ChildVar :=
  if d.array.isEmpty then .error .indexErrNoArray
  else if idx.length ≠ d.array.length then .error .indexErrDims
  else
    match linearFold (idx.zip d.array) 0 1 with
    | .error e => .error e
    | .ok (linearIndex, nItems) =>
      if d.size % nItems ≠ 0 then .error .assertFail
      else
        let elementSize := d.size / nItems
        if d.typeRef = "" then .error .notImplemented
        else .ok ⟨fmtIdx idx, .byName d.typeRef, po + linearIndex * elementSize⟩

/-- First sub-item with the given name (Python `self.__datatype.subItems[name]`;
sub-item names are unique in well-formed blobs, where this agrees with the
`OrderedDict` lookup). -/
def lookupSub : List AdsDatatypeEntry → String → Option AdsDatatypeEntry
  | [], _ => none
  | s :: rest, nm => if s.name = nm then some s else lookupSub rest nm

/-- Model of `Variable.__getattr__` (`adssymbols.py` lines 366-384) for a
variable with datatype record `d` at offset `po`: look the member up in
the sub-items, compute the child offset as the member offset plus the
parent offset, and pass the member's referenced type name when it is
non-empty, the member record itself otherwise. -/
def varGetattr (d : AdsDatatypeEntry) (po : Int) (nm : String) :
    Except VErr ChildVar :=
  match lookupSub d.subItems nm with
  | none => .error .attrError
  | some s =>
    .ok ⟨nm, if s.typeRef ≠ "" then .byName s.typeRef else .byEntry s,
         (s.offs : Int) + po⟩

/-- Strict left-to-right effectful map over `Except`: the list of results,
or the first error.  (Models a generator consumed into a list, erroring at
the first element whose production raises.) -/
def exMap {ε α β : Type} (f : α → Except ε β) : List α → Except ε (List β)
  | [] => .ok []
  | a :: l =>
    match f a with
    | .error e => .error e
    | .ok b =>
      match exMap f l with
      | .error e => .error e
      | .ok bs => .ok (b :: bs)

/-- Model of Python `range(lower, lower + elements)` as a list of `Int`. -/
def rangeInt (lower : Int) (elements : Nat) : List Int :=
  (List.range elements).map (fun (k : Nat) => lower + (k : Int))

/-- Model of `itertools.product(*[range(a[0], a[0] + a[1]) for a in dims])`:
all index tuples in row-major order, the last dimension varying fastest. -/
def prodDims : List (Int × Nat) → List (List Int)
  | [] => [[]]
  | (lower, elements) :: rest =>
    (rangeInt lower elements).flatMap
      (fun i => (prodDims rest).map (fun t => i :: t))

/-- Model of `Variable.__iter__` (`adssymbols.py` lines 387-413) for a
variable whose datatype record is `dOpt` (none models `self.__datatype is
None`, the basic/unknown-type case) at offset `po`.  An array yields
`(indexString, self[idx])` pairs over all coordinate tuples; a composite
yields `(fieldName, getattr(self, fieldName))` pairs in declared order;
a datatype with neither dimensions nor sub-items falls through both
branches.  The generator is strict here: the first exception a child
access would raise is returned as the overall error. -/
def varIter (dOpt : Option AdsDatatypeEntry) (po : Int) :
    Except VErr (List (String × ChildVar)) :=
  match dOpt with
  | none => .error .notIterable
  | some d =>
    if ¬ d.array.isEmpty then
      exMap (fun idx =>
        match varGetitem d po idx with
        | .error e => .error e
        | .ok child => .ok (fmtIdx idx, child)) (prodDims d.array)
    else if ¬ d.subItems.isEmpty then
      exMap (fun nm =>
        match varGetattr d po nm with
        | .error e => .error e
        | .ok child => .ok (nm, child)) (d.subItems.map AdsDatatypeEntry.name)
    else .ok []

/-! ## The record stream (`Entry.iter`, `AdsSymbolEntry`)

`Entry.iter` slices a blob into records using the leading 4-byte length
field of each record and constructs an entry object from each slice.  We
model it for `AdsSymbolEntry` (the construction for `AdsDatatypeEntry`
begins with the same fixed-header `struct.unpack`, which is all the
claims about `Entry.iter` turn on). -/

/-- Little-endian read of `w` bytes at position `p`; `none` when fewer
than `w` bytes remain (Python `struct.unpack` raises `struct.error` when
the buffer is shorter than the format). -/
def readLE (data : List Nat) (p w : Nat) : Option Nat :=
  if p + w ≤ data.length then
    some (((List.range w).map (fun k => data.getD (p + k) 0 * 256 ^ k)).sum)
  else none

/-- Decoded `AdsSymbolEntry`: the nine fixed header fields and the three
variable-length byte strings (kept as raw Latin-1 bytes). -/
structure AdsSymbolEntry where
  entryLength : Nat
  iGroup : Nat
  iOffs : Nat
  size : Nat
  dataType : Nat
  flags : Nat
  nameLength : Nat
  typeLength : Nat
  commentLength : Nat
  nameB : List Nat
  typeB : List Nat
  commentB : List Nat
  deriving DecidableEq, Repr

/-- Model of `Entry._stringfield`: the first `length` bytes, then skip one
NUL, returning the string bytes and the remainder (Python slicing clamps
silently when the data is shorter than declared). -/
def stringField (length : Nat) (data : List Nat) : List Nat × List Nat :=
  (data.take length, data.drop (length + 1))

/-- Model of `AdsSymbolEntry.__init__` on one record slice: unpack the
`'LLLLLLHHH'` fixed header (30 bytes; `struct.error`, modelled as `none`,
when the slice is shorter), then split off the name, type and comment
strings.  String overruns are clamped silently by Python slicing. -/
def parseAdsSymbolEntry (data : List Nat) : Option AdsSymbolEntry :=
  match readLE data 0 4, readLE data 4 4, readLE data 8 4, readLE data 12 4,
        readLE data 16 4, readLE data 20 4, readLE data 24 2, readLE data 26 2,
        readLE data 28 2 with
  | some entryLength, some iGroup, some iOffs, some size, some dataType,
    some flags, some nameLength, some typeLength, some commentLength =>
    let r0 := data.drop 30
    let (nameB, r1) := stringField nameLength r0
    let (typeB, r2) := stringField typeLength r1
    let (commentB, _) := stringField commentLength r2
    some ⟨entryLength, iGroup, iOffs, size, dataType, flags,
          nameLength, typeLength, commentLength, nameB, typeB, commentB⟩
  | _, _, _, _, _, _, _, _, _ => none

/-- Outcome of iterating `Entry.iter`: the loop ended at the blob end
(`done`), an entry construction or length unpack raised (`failed`), or the
fuel ran out while the loop was still running (`stillRunning`).  Each
outcome carries the entries yielded before it. -/
inductive IterOutcome where
  | done (es : List AdsSymbolEntry)
  | failed (es : List AdsSymbolEntry)
  | stillRunning (es : List AdsSymbolEntry)
  deriving DecidableEq, Repr

/-- Prepend an entry yielded before the rest of the iteration. -/
def IterOutcome.push (e : AdsSymbolEntry) : IterOutcome → IterOutcome
  | .done es => .done (e :: es)
  | .failed es => .failed (e :: es)
  | .stillRunning es => .stillRunning (e :: es)

/-- Whether an iteration outcome means the fuel ran out while the source
loop would still be running. -/
def IterOutcome.isStillRunning : IterOutcome → Bool
  | .stillRunning _ => true
  | _ => false

/-- Model of `Entry.iter(data)` (`adssymbols.py` lines 110-123) for
`AdsSymbolEntry`, from cursor `p`: while `p < len(data)`, unpack the
4-byte length at `p` (`struct.error` fails the iteration), construct an
entry from `data[p:p+length]` (a failed construction fails the
iteration), yield it, and advance the cursor by the declared length. -/
def entryIterSym (data : List Nat) : Nat → Nat → IterOutcome
  | 0, _ => .stillRunning []
  | fuel + 1, p =>
    if p < data.length then
      match readLE data p 4 with
      | none => .failed []
      | some length =>
        match parseAdsSymbolEntry ((data.drop p).take length) with
        | none => .failed []
        | some e => (entryIterSym data fuel (p + length)).push e
    else .done []

/-! ## Specification-side definitions

These definitions follow the wording of the specification's claims (not
the source); the theorems below relate them to the source-side models. -/

/-- Product of the element counts of a dimension list (the claims'
"product of all dimension element counts"). -/
def prodCounts : List (Int × Nat) → Nat
  | [] => 1
  | d :: rest => d.2 * prodCounts rest

/-- Product of the element counts of the dimensions of a zipped
index-component/dimension list. -/
def zProd : List (Int × (Int × Nat)) → Nat
  | [] => 1
  | p :: rest => p.2.2 * zProd rest

/-- The claims' row-major linear index: the sum over dimensions `d` of
`(indexComponent_d - lowerBound_d)` times the product of the element
counts of all dimensions inner to (declared after) `d`. -/
def rowMajorSum : List (Int × (Int × Nat)) → Int
  | [] => 0
  | (i, (lower, _)) :: rest => (i - lower) * (zProd rest : Int) + rowMajorSum rest

/-- Claim-side description of structure-field synthesis (spec section 4.4
step 6), given a resolver `f` for the members' layouts: walk the members
with a cursor; a member whose offset exceeds the cursor is preceded by an
anonymous padding field of exactly the gap; a member at the cursor becomes
a named field; a member below the cursor is skipped. -/
def claimFields (f : AdsDatatypeEntry → Ctype) :
    List AdsDatatypeEntry → Nat → Fields
  | [], _ => .nil
  | s :: rest, o =>
    if o < s.offs then
      .cons "" (charArray (s.offs - o))
        (.cons s.name (f s) (claimFields f rest (s.offs + s.size)))
    else if s.offs = o then
      .cons s.name (f s) (claimFields f rest (o + s.size))
    else claimFields f rest o

/-- Claim-side final cursor of structure-field synthesis: each member at
or above the cursor moves it to the member's offset plus its size, a
member below the cursor (skipped) leaves it unchanged. -/
def claimCursor : List AdsDatatypeEntry → Nat → Nat
  | [], o => o
  | s :: rest, o =>
    if o ≤ s.offs then claimCursor rest (s.offs + s.size)
    else claimCursor rest o

/-- Whether a `Variable` operation result is a raised Python `IndexError`. -/
def resIsIndexError {α : Type} : Except VErr α → Bool
  | .error e => e.isIndexError
  | .ok _ => false

/-! ## Concrete fixtures

Concrete records, tables and blobs used by the per-claim scenarios,
witnesses and counterexamples. -/

/-- The seeded memo state of a fresh `AdsVariablesDefinition`
(`self.ctypes = basictypes.copy()`). -/
def st0 : St := ⟨basicCtypes⟩

/-- Scenario 3 of the specification: an array record with dimensions
`[(-2, 4)]` over element type `BYTE`, declared size 4. -/
def scen3Rec : AdsDatatypeEntry := .mk "ARR" "BYTE" 4 0 [(-2, 4)] []

/-- A pointer-like record: non-empty type reference, no array dimensions,
no sub-items (as kept by `Variable.__init__` for `POINTER TO` names). -/
def ptrRec : AdsDatatypeEntry := .mk "POINTER TO INT" "INT" 8 0 [] []

/-- A two-dimensional array record: dimensions `[(1,2),(0,3)]` over `INT`,
declared size 12 (6 elements of 2 bytes). -/
def arr2Rec : AdsDatatypeEntry := .mk "A2" "INT" 12 0 [(1, 2), (0, 3)] []

/-- A table record named `INT`, shadowed by the seeded primitive `INT`
(2 bytes) although it declares size 4. -/
def c3intRec : AdsDatatypeEntry := .mk "INT" "INT16" 4 0 [] []

/-- An alias/array record whose declared size 4 is not a multiple of its
element-count product 3. -/
def badArrRec : AdsDatatypeEntry := .mk "BADARR" "BYTE" 4 0 [(0, 3)] []

/-- An alias/array record that synthesizes cleanly: 4 bytes over `BYTE`
with dimensions `[(0, 4)]`. -/
def goodArrRec : AdsDatatypeEntry := .mk "GOODARR" "BYTE" 4 0 [(0, 4)] []

/-- The ctype synthesized for `goodArrRec`. -/
def goodArrCt : Ctype := .carray 4 (.prim "c_byte" 1 1)

/-- A data-type table holding the fixture records. -/
def fixDtypes : List (String × AdsDatatypeEntry) :=
  [("INT", c3intRec), ("BADARR", badArrRec), ("GOODARR", goodArrRec)]

/-- The memo state after synthesizing `GOODARR` from `st0`. -/
def st1 : St := ⟨insertA st0.ctypes "GOODARR" goodArrCt⟩

/-- Scenario 2 of the specification: a structure record with two 4-byte
members (`DWORD`) at offsets 0 and 8 and declared total size 12. -/
def c6Rec : AdsDatatypeEntry := .mk "S2" "" 12 0 []
  [.mk "a" "DWORD" 4 0 [] [], .mk "b" "DWORD" 4 8 [] []]

/-- A table holding the scenario-2 structure record. -/
def c6dtypes : List (String × AdsDatatypeEntry) := [("S2", c6Rec)]

/-- The fields synthesized for scenario 2: member `a`, one 4-byte
anonymous padding field, member `b`, and no trailing padding. -/
def c6Fields : Fields := .cons "a" (.prim "c_int32" 4 4)
  (.cons "" (charArray 4) (.cons "b" (.prim "c_int32" 4 4) .nil))

/-- A blob whose first record declares total length 0. -/
def c2zeroBlob : List Nat := [0, 0, 0, 0]

/-- A 30-byte blob whose single record declares total length 100,
extending far past the end of the blob. -/
def c2overBlob : List Nat := [100, 0, 0, 0] ++ List.replicate 26 0

/-- The truncated record that `Entry.iter` yields from `c2overBlob`. -/
def c2overRec : AdsSymbolEntry := ⟨100, 0, 0, 0, 0, 0, 0, 0, 0, [], [], []⟩

/-! ## Helper lemmas -/

theorem zProd_zip (idx : List Int) (dims : List (Int × Nat))
    (h : idx.length = dims.length) : zProd (idx.zip dims) = prodCounts dims := by
  induction idx generalizing dims with
  | nil => cases dims with
    | nil => rfl
    | cons d rest => simp at h
  | cons i is ih =>
    cases dims with
    | nil => simp at h
    | cons d rest =>
      show d.2 * zProd (is.zip rest) = d.2 * prodCounts rest
      rw [ih rest (by simpa using h)]

theorem linearFold_ok (ps : List (Int × (Int × Nat)))
    (h : ∀ p ∈ ps, p.2.1 ≤ p.1 ∧ p.1 < p.2.1 + (p.2.2 : Int)) :
    ∀ lin : Int, ∀ n : Nat,
      linearFold ps lin n = .ok (lin * zProd ps + rowMajorSum ps, n * zProd ps) := by
  induction ps with
  | nil => intro lin n; simp [linearFold, zProd, rowMajorSum]
  | cons p rest ih =>
    intro lin n
    obtain ⟨i, lower, elements⟩ := p
    obtain ⟨h1, h2⟩ := h _ (List.mem_cons_self _ _)
    rw [linearFold, if_neg (by push_neg; exact ⟨h1, h2⟩)]
    rw [ih (fun q hq => h q (List.mem_cons_of_mem _ hq))]
    simp only [Except.ok.injEq, Prod.mk.injEq, zProd, rowMajorSum]
    constructor
    · push_cast
      ring
    · ring

theorem linearFold_err (ps : List (Int × (Int × Nat)))
    (h : ∃ p ∈ ps, p.1 < p.2.1 ∨ p.2.1 + (p.2.2 : Int) ≤ p.1) :
    ∀ lin : Int, ∀ n : Nat, linearFold ps lin n = .error .indexErrRange := by
  induction ps with
  | nil => simp at h
  | cons p rest ih =>
    intro lin n
    obtain ⟨i, lower, elements⟩ := p
    by_cases hbad : i < lower ∨ lower + (elements : Int) ≤ i
    · rw [linearFold, if_pos hbad]
    · rw [linearFold, if_neg hbad]
      apply ih
      rcases h with ⟨q, hq, hbadq⟩
      rcases List.mem_cons.mp hq with rfl | hmem
      · exact absurd hbadq hbad
      · exact ⟨q, hmem, hbadq⟩


theorem varGetitem_eval (d : AdsDatatypeEntry) (po : Int) (idx : List Int)
    (hdims : d.array ≠ []) (hlen : idx.length = d.array.length)
    (hrange : ∀ p ∈ idx.zip d.array, p.2.1 ≤ p.1 ∧ p.1 < p.2.1 + (p.2.2 : Int)) :
    varGetitem d po idx =
      if d.size % prodCounts d.array ≠ 0 then .error .assertFail
      else if d.typeRef = "" then .error .notImplemented
      else .ok ⟨fmtIdx idx, .byName d.typeRef,
        po + rowMajorSum (idx.zip d.array) *
          ((d.size / prodCounts d.array : Nat) : Int)⟩ := by
  rw [varGetitem, if_neg (by simpa [List.isEmpty_iff] using hdims), if_neg (by omega)]
  rw [linearFold_ok _ hrange, zProd_zip _ _ hlen]
  have hred : ∀ r : Except VErr (Int × Nat), ∀ li : Int, ∀ ni : Nat,
      r = .ok (li, ni) →
      (match r with
       | Except.error e => Except.error e
       | Except.ok (linearIndex, nItems) =>
         if d.size % nItems ≠ 0 then Except.error VErr.assertFail
         else
           let elementSize := d.size / nItems
           if d.typeRef = "" then Except.error VErr.notImplemented
           else Except.ok (⟨fmtIdx idx, DtypeRef.byName d.typeRef,
             po + linearIndex * (elementSize : Int)⟩ : ChildVar)) =
       (if d.size % ni ≠ 0 then Except.error VErr.assertFail
        else if d.typeRef = "" then Except.error VErr.notImplemented
        else Except.ok (⟨fmtIdx idx, DtypeRef.byName d.typeRef,
          po + li * ((d.size / ni : Nat) : Int)⟩ : ChildVar)) := by
    rintro r li ni rfl
    rfl
  rw [hred _ (0 * ((prodCounts d.array : Nat) : Int) + rowMajorSum (idx.zip d.array))
        (1 * prodCounts d.array) rfl]
  simp only [zero_mul, zero_add, Nat.one_mul]

theorem varGetitem_ok (d : AdsDatatypeEntry) (po : Int) (idx : List Int)
    (hdims : d.array ≠ []) (htype : d.typeRef ≠ "")
    (hlen : idx.length = d.array.length)
    (hrange : ∀ p ∈ idx.zip d.array, p.2.1 ≤ p.1 ∧ p.1 < p.2.1 + (p.2.2 : Int))
    (hdvd : prodCounts d.array ∣ d.size) :
    varGetitem d po idx = .ok ⟨fmtIdx idx, .byName d.typeRef,
      po + ((d.size / prodCounts d.array : Nat) : Int) * rowMajorSum (idx.zip d.array)⟩ := by
  have hmod : d.size % prodCounts d.array = 0 := by
    rcases hdvd with ⟨k, hk⟩
    rw [hk]
    exact Nat.mul_mod_right _ _
  rw [varGetitem_eval d po idx hdims hlen hrange, if_neg (by simp [hmod]),
    if_neg htype]
  simp only [Except.ok.injEq, ChildVar.mk.injEq, true_and]
  ring

theorem varGetitem_indexError_iff (d : AdsDatatypeEntry) (po : Int)
    (idx : List Int) (hdims : d.array ≠ []) :
    resIsIndexError (varGetitem d po idx) = true ↔
      idx.length ≠ d.array.length ∨
        ∃ p ∈ idx.zip d.array, p.1 < p.2.1 ∨ p.2.1 + (p.2.2 : Int) ≤ p.1 := by
  by_cases hlen : idx.length ≠ d.array.length
  · rw [varGetitem, if_neg (by simpa [List.isEmpty_iff] using hdims), if_pos hlen]
    simp [resIsIndexError, VErr.isIndexError, hlen]
  · push_neg at hlen
    by_cases hbad : ∃ p ∈ idx.zip d.array, p.1 < p.2.1 ∨ p.2.1 + (p.2.2 : Int) ≤ p.1
    · rw [varGetitem, if_neg (by simpa [List.isEmpty_iff] using hdims),
        if_neg (by omega), linearFold_err _ hbad]
      simp [resIsIndexError, VErr.isIndexError, hbad]
    · push_neg at hbad
      rw [varGetitem_eval d po idx hdims hlen
          (fun p hp => ⟨(hbad p hp).1, by have := (hbad p hp).2; omega⟩)]
      have hfalse : ¬ (idx.length ≠ d.array.length ∨
          ∃ p ∈ idx.zip d.array, p.1 < p.2.1 ∨ p.2.1 + (p.2.2 : Int) ≤ p.1) := by
        push_neg
        exact ⟨hlen, fun p hp => ⟨(hbad p hp).1,
          by have := (hbad p hp).2; omega⟩⟩
      by_cases h1 : d.size % prodCounts d.array ≠ 0
      · rw [if_pos h1]
        simp only [resIsIndexError, VErr.isIndexError]
        simpa using hfalse
      · rw [if_neg h1]
        by_cases h2 : d.typeRef = ""
        · rw [if_pos h2]
          simp only [resIsIndexError, VErr.isIndexError]
          simpa using hfalse
        · rw [if_neg h2]
          simp only [resIsIndexError]
          simpa using hfalse

theorem exMap_map_ok {ε α β γ : Type} (f : β → Except ε γ) (h : α → β)
    (g : α → γ) (l : List α) (hok : ∀ a ∈ l, f (h a) = .ok (g a)) :
    exMap f (l.map h) = .ok (l.map g) := by
  induction l with
  | nil => rfl
  | cons a rest ih =>
    simp only [List.map_cons, exMap, hok a (List.mem_cons_self _ _),
      ih (fun b hb => hok b (List.mem_cons_of_mem _ hb))]

theorem exMap_ok {ε α β : Type} (f : α → Except ε β) (g : α → β)
    (l : List α) (hok : ∀ a ∈ l, f a = .ok (g a)) :
    exMap f l = .ok (l.map g) := by
  have := exMap_map_ok f id g l (by simpa using hok)
  simpa using this

theorem mem_rangeInt (lower : Int) (elements : Nat) (i : Int) :
    i ∈ rangeInt lower elements ↔ lower ≤ i ∧ i < lower + (elements : Int) := by
  constructor
  · intro h
    rw [rangeInt] at h
    obtain ⟨k, hk, rfl⟩ := List.mem_map.mp h
    have hk2 := List.mem_range.mp hk
    omega
  · rintro ⟨h1, h2⟩
    rw [rangeInt]
    exact List.mem_map.mpr
      ⟨(i - lower).toNat, List.mem_range.mpr (by omega), by omega⟩

theorem prodDims_mem (dims : List (Int × Nat)) (idx : List Int)
    (h : idx ∈ prodDims dims) :
    idx.length = dims.length ∧
      ∀ p ∈ idx.zip dims, p.2.1 ≤ p.1 ∧ p.1 < p.2.1 + (p.2.2 : Int) := by
  induction dims generalizing idx with
  | nil =>
    simp only [prodDims, List.mem_singleton] at h
    subst h
    simp
  | cons dim rest ih =>
    obtain ⟨lower, elements⟩ := dim
    simp only [prodDims, List.mem_flatMap] at h
    obtain ⟨i, hi, hidx⟩ := h
    rw [mem_rangeInt] at hi
    simp only [List.mem_map] at hidx
    obtain ⟨t, ht, rfl⟩ := hidx
    obtain ⟨hlen, hrange⟩ := ih t ht
    constructor
    · simp [hlen]
    · intro p hp
      rcases List.mem_cons.mp (by simpa [List.zip_cons_cons] using hp) with rfl | hmem
      · exact ⟨by show lower ≤ i; exact hi.1,
          by show i < lower + (elements : Int); exact hi.2⟩
      · exact hrange p hmem

theorem lookupSub_self (subs : List AdsDatatypeEntry)
    (hnd : (subs.map AdsDatatypeEntry.name).Nodup) :
    ∀ s ∈ subs, lookupSub subs s.name = some s := by
  induction subs with
  | nil => intro s hs; simp at hs
  | cons t rest ih =>
    intro s hs
    rcases List.mem_cons.mp hs with rfl | hmem
    · simp [lookupSub]
    · have hne : t.name ≠ s.name := by
        intro heq
        have : s.name ∈ rest.map AdsDatatypeEntry.name :=
          List.mem_map.mpr ⟨s, hmem, rfl⟩
        rw [← heq] at this
        exact (List.nodup_cons.mp hnd).1 this
      rw [lookupSub, if_neg hne]
      exact ih (List.nodup_cons.mp hnd).2 s hmem

theorem nzGetScalar_eval (b : Int) (n : Nat) (i : Int) :
    nzGetScalar b n i =
      if i - b < 0 then .error .indexError
      else if i - b < (n : Int) then .ok (i - b).toNat
      else .error .indexError := by
  by_cases h : i - b < 0
  · rw [if_pos h, nzGetScalar, show convertIndexInt b i = .error .indexError from by
      rw [convertIndexInt]; exact if_pos h]
  · rw [if_neg h, nzGetScalar, show convertIndexInt b i = .ok (i - b) from by
      rw [convertIndexInt]; exact if_neg h]

theorem nzGetScalar_inRange (b : Int) (n : Nat) (k : Nat) (hk : k < n) :
    nzGetScalar b n (b + k) = .ok k := by
  rw [nzGetScalar_eval, if_neg (by omega), if_pos (by omega)]
  congr 1
  omega

theorem nzGetScalar_tooHigh (b : Int) (n : Nat) (i : Int)
    (hlo : b ≤ i) (hhi : b + (n : Int) ≤ i) :
    nzGetScalar b n i = .error .indexError := by
  rw [nzGetScalar_eval, if_neg (by omega), if_neg (by omega)]

theorem nzGetScalar_tooLow (b : Int) (n : Nat) (i : Int) (hlo : i < b) :
    nzGetScalar b n i = .error .indexError := by
  rw [nzGetScalar_eval, if_pos (by omega)]

theorem nzIter_from (b : Int) (n : Nat) :
    ∀ m k : Nat, k + m = n →
      nzIter b n (m + 1) (b + k) = (List.range' k m, true) := by
  intro m
  induction m with
  | zero =>
    intro k hk
    rw [nzIter, nzGetScalar_tooHigh b n (b + k) (by omega) (by omega)]
    simp
  | succ m ih =>
    intro k hk
    rw [nzIter, nzGetScalar_inRange b n k (by omega)]
    have harg : b + (k : Int) + 1 = b + ((k + 1 : Nat) : Int) := by push_cast; ring
    rw [harg, ih (k + 1) (by omega)]
    simp [List.range'_succ]

theorem getCtype_zero (dtypes : List (String × AdsDatatypeEntry)) (st : St)
    (dtypename : String) (sizeHint : Option Nat) :
    getCtype dtypes 0 st dtypename sizeHint = .error .fuelOut := rfl

theorem getCtype_succ (dtypes : List (String × AdsDatatypeEntry)) (fuel : Nat)
    (st : St) (dtypename : String) (sizeHint : Option Nat) :
    getCtype dtypes (fuel + 1) st dtypename sizeHint =
      match lookupA st.ctypes dtypename with
      | some c => .ok (some c, st)
      | none =>
        match plcStringMatch dtypename with
        | some len =>
          let c := Ctype.plcString len
          .ok (some c, ⟨insertA st.ctypes dtypename c⟩)
        | none =>
          match lookupA dtypes dtypename with
          | none =>
            match sizeHint with
            | none => .ok (none, st)
            | some s => .ok (some (.dummy s), st)
          | some d =>
            if strStartsWith d.name "POINTER TO " then
              .ok (getCtypeFinish dtypename d cVoidP st)
            else if d.typeRef ≠ "" ∧ d.subItems.isEmpty then
              let arraysize := arrProd d.array
              if arraysize = 0 then .error .zeroDivErr
              else if d.size % arraysize ≠ 0 then .error .assertErr
              else
                match getCtype dtypes fuel st d.typeRef (some (d.size / arraysize)) with
                | .error e => .error e
                | .ok (none, _) => .error .assertErr
                | .ok (some c, st') => .ok (getCtypeFinish dtypename d c st')
            else if ¬ d.subItems.isEmpty ∧ d.typeRef = "" then
              match structFieldsLoop dtypes fuel d.subItems 0 st with
              | .error e => .error e
              | .ok (fs, o, st') =>
                let fs' := if o < d.size then
                    fs.append (.cons "" (charArray (d.size - o)) .nil)
                  else fs
                .ok (getCtypeFinish dtypename d (.cstruct d.name fs') st')
            else
              .ok (getCtypeFinish dtypename d (charArray d.size) st) := rfl

theorem structFieldsLoop_zero (dtypes : List (String × AdsDatatypeEntry))
    (subs : List AdsDatatypeEntry) (o : Nat) (st : St) :
    structFieldsLoop dtypes 0 subs o st = .error .fuelOut := rfl

theorem structFieldsLoop_nil (dtypes : List (String × AdsDatatypeEntry))
    (fuel : Nat) (o : Nat) (st : St) :
    structFieldsLoop dtypes (fuel + 1) [] o st = .ok (.nil, o, st) := rfl

theorem structFieldsLoop_cons (dtypes : List (String × AdsDatatypeEntry))
    (fuel : Nat) (s : AdsDatatypeEntry) (rest : List AdsDatatypeEntry)
    (o : Nat) (st : St) :
    structFieldsLoop dtypes (fuel + 1) (s :: rest) o st =
      (if o < s.offs then
        match getCtype dtypes fuel st s.typeRef (some s.size) with
        | .error e => .error e
        | .ok (none, _) => .error .typeErr
        | .ok (some c, st₁) =>
          match structFieldsLoop dtypes fuel rest (s.offs + s.size) st₁ with
          | .error e => .error e
          | .ok (fs, o₂, st₂) =>
            .ok (.cons "" (charArray (s.offs - o)) (.cons s.name c fs), o₂, st₂)
      else if s.offs = o then
        match getCtype dtypes fuel st s.typeRef (some s.size) with
        | .error e => .error e
        | .ok (none, _) => .error .typeErr
        | .ok (some c, st₁) =>
          match structFieldsLoop dtypes fuel rest (o + s.size) st₁ with
          | .error e => .error e
          | .ok (fs, o₂, st₂) => .ok (.cons s.name c fs, o₂, st₂)
      else
        structFieldsLoop dtypes fuel rest o st) := rfl

theorem lookupA_insertA {α : Type} (m : List (String × α)) (k : String) (v : α) :
    lookupA (insertA m k v) k = some v := by
  induction m with
  | nil => simp [insertA, lookupA]
  | cons p rest ih =>
    obtain ⟨k', w⟩ := p
    by_cases h : k' = k
    · subst h
      simp [insertA, lookupA]
    · rw [insertA, if_neg h, lookupA, if_neg h]
      exact ih

theorem getCtypeFinish_spec (nm : String) (d : AdsDatatypeEntry) (c : Ctype)
    (st : St) :
    ∃ f, getCtypeFinish nm d c st = (some f, ⟨insertA st.ctypes nm f⟩) ∧
      sizeofC f = d.size := by
  rw [getCtypeFinish]
  by_cases h : d.size ≠ sizeofC (wrapDims d.array c)
  · exact ⟨.dummy d.size, by rw [if_pos h], rfl⟩
  · push_neg at h
    exact ⟨wrapDims d.array c, by rw [if_neg (by omega)], h.symm⟩

theorem getCtype_cacheHit (dtypes : List (String × AdsDatatypeEntry))
    (fuel : Nat) (st : St) (nm : String) (hint : Option Nat) (c : Ctype)
    (h : lookupA st.ctypes nm = some c) :
    getCtype dtypes (fuel + 1) st nm hint = .ok (some c, st) := by
  rw [getCtype_succ, h]

theorem getCtype_size (dtypes : List (String × AdsDatatypeEntry)) (fuel : Nat)
    (st : St) (nm : String) (hint : Option Nat) (d : AdsDatatypeEntry)
    (c : Ctype) (st' : St)
    (h1 : lookupA st.ctypes nm = none) (h2 : plcStringMatch nm = none)
    (h3 : lookupA dtypes nm = some d)
    (hok : getCtype dtypes fuel st nm hint = .ok (some c, st')) :
    sizeofC c = d.size := by
  match fuel with
  | 0 =>
    rw [getCtype_zero] at hok
    exact Except.noConfusion hok
  | fuel + 1 =>
    rw [getCtype_succ] at hok
    simp only [h1, h2, h3] at hok
    have finishCase : ∀ base : Ctype, ∀ stb : St,
        (Except.ok (getCtypeFinish nm d base stb) :
          Except CtErr (Option Ctype × St)) = .ok (some c, st') →
        sizeofC c = d.size := by
      intro base stb heq
      obtain ⟨f, hf, hsz⟩ := getCtypeFinish_spec nm d base stb
      rw [hf] at heq
      simp only [Except.ok.injEq, Prod.mk.injEq, Option.some.injEq] at heq
      rw [← heq.1]
      exact hsz
    repeat' first
      | exact finishCase _ _ hok
      | exact Except.noConfusion hok
      | split at hok

theorem getCtype_memoized (dtypes : List (String × AdsDatatypeEntry))
    (fuel : Nat) (st : St) (nm : String) (hint : Option Nat) (c : Ctype)
    (st' : St)
    (h1 : lookupA st.ctypes nm = none)
    (h2 : plcStringMatch nm ≠ none ∨ lookupA dtypes nm ≠ none)
    (hok : getCtype dtypes fuel st nm hint = .ok (some c, st')) :
    lookupA st'.ctypes nm = some c := by
  match fuel with
  | 0 =>
    rw [getCtype_zero] at hok
    exact Except.noConfusion hok
  | fuel + 1 =>
    rw [getCtype_succ] at hok
    simp only [h1] at hok
    cases hpm : plcStringMatch nm with
    | some len =>
      simp only [hpm] at hok
      simp only [Except.ok.injEq, Prod.mk.injEq, Option.some.injEq] at hok
      rw [← hok.2, ← hok.1]
      exact lookupA_insertA st.ctypes nm (Ctype.plcString len)
    | none =>
      simp only [hpm] at hok
      cases hdt : lookupA dtypes nm with
      | none =>
        rcases h2 with h | h
        · exact absurd hpm h
        · exact absurd hdt h
      | some d =>
        simp only [hdt] at hok
        have finishCase : ∀ base : Ctype, ∀ stb : St,
            (Except.ok (getCtypeFinish nm d base stb) :
              Except CtErr (Option Ctype × St)) = .ok (some c, st') →
            lookupA st'.ctypes nm = some c := by
          intro base stb heq
          obtain ⟨f, hf, hsz⟩ := getCtypeFinish_spec nm d base stb
          rw [hf] at heq
          simp only [Except.ok.injEq, Prod.mk.injEq, Option.some.injEq] at heq
          rw [← heq.2, ← heq.1]
          exact lookupA_insertA stb.ctypes nm f
        repeat' first
          | exact finishCase _ _ hok
          | exact Except.noConfusion hok
          | split at hok

theorem getCtype_assertRemainder (dtypes : List (String × AdsDatatypeEntry))
    (fuel : Nat) (st : St) (nm : String) (hint : Option Nat)
    (d : AdsDatatypeEntry)
    (h1 : lookupA st.ctypes nm = none) (h2 : plcStringMatch nm = none)
    (h3 : lookupA dtypes nm = some d)
    (hptr : strStartsWith d.name "POINTER TO " = false)
    (htype : d.typeRef ≠ "") (hsub : d.subItems = [])
    (hz : arrProd d.array ≠ 0) (hmod : d.size % arrProd d.array ≠ 0) :
    getCtype dtypes (fuel + 1) st nm hint = .error .assertErr := by
  rw [getCtype_succ]
  simp only [h1, h2, h3]
  rw [if_neg (by simp [hptr]), if_pos ⟨htype, by simp [hsub]⟩,
    if_neg hz, if_pos hmod]

theorem getCtype_none_char (dtypes : List (String × AdsDatatypeEntry))
    (fuel : Nat) (st : St) (nm : String) (hint : Option Nat) (st' : St)
    (hok : getCtype dtypes (fuel + 1) st nm hint = .ok (none, st')) :
    lookupA st.ctypes nm = none ∧ plcStringMatch nm = none ∧
      lookupA dtypes nm = none ∧ hint = none ∧ st' = st := by
  rw [getCtype_succ] at hok
  cases hc : lookupA st.ctypes nm with
  | some c =>
    simp only [hc] at hok
    simp at hok
  | none =>
    simp only [hc] at hok
    cases hpm : plcStringMatch nm with
    | some len =>
      simp only [hpm] at hok
      simp at hok
    | none =>
      simp only [hpm] at hok
      cases hdt : lookupA dtypes nm with
      | none =>
        simp only [hdt] at hok
        cases hint with
        | none =>
          simp only [Except.ok.injEq, Prod.mk.injEq] at hok
          exact ⟨rfl, rfl, rfl, rfl, hok.2.symm⟩
        | some s =>
          simp at hok
      | some d =>
        simp only [hdt] at hok
        have finishCase : ∀ base : Ctype, ∀ stb : St,
            (Except.ok (getCtypeFinish nm d base stb) :
              Except CtErr (Option Ctype × St)) = .ok (none, st') → False := by
          intro base stb heq
          obtain ⟨f, hf, hsz⟩ := getCtypeFinish_spec nm d base stb
          rw [hf] at heq
          simp at heq
        repeat' first
          | exact (finishCase _ _ hok).elim
          | exact Except.noConfusion hok
          | split at hok

theorem structFieldsLoop_spec (dtypes : List (String × AdsDatatypeEntry))
    (f : AdsDatatypeEntry → Ctype) :
    ∀ subs : List AdsDatatypeEntry, ∀ fuel o : Nat, ∀ st : St,
      subs.length < fuel →
      (∀ s ∈ subs, lookupA st.ctypes s.typeRef = some (f s)) →
      structFieldsLoop dtypes fuel subs o st =
        .ok (claimFields f subs o, claimCursor subs o, st) := by
  intro subs
  induction subs with
  | nil =>
    intro fuel o st hf _
    match fuel, hf with
    | fuel + 1, _ => rw [structFieldsLoop_nil]; rfl
  | cons s rest ih =>
    intro fuel o st hf hcache
    match fuel, hf with
    | fuel + 1, hf2 =>
      have hfuel : rest.length < fuel := by
        simp only [List.length_cons] at hf2
        omega
      have hres : getCtype dtypes fuel st s.typeRef (some s.size) =
          .ok (some (f s), st) := by
        obtain ⟨m, rfl⟩ : ∃ m, fuel = m + 1 := ⟨fuel - 1, by omega⟩
        exact getCtype_cacheHit dtypes m st s.typeRef (some s.size) (f s)
          (hcache s (List.mem_cons_self _ _))
      have hcache' : ∀ t ∈ rest, lookupA st.ctypes t.typeRef = some (f t) :=
        fun t ht => hcache t (List.mem_cons_of_mem _ ht)
      rw [structFieldsLoop_cons]
      by_cases h1 : o < s.offs
      · rw [if_pos h1]
        simp only [hres, ih fuel (s.offs + s.size) st hfuel hcache']
        rw [claimFields, if_pos h1, claimCursor, if_pos (le_of_lt h1)]
      · rw [if_neg h1]
        by_cases h2 : s.offs = o
        · subst h2
          rw [if_pos rfl]
          simp only [hres, ih fuel (s.offs + s.size) st hfuel hcache']
          rw [claimFields, if_neg h1, if_pos rfl, claimCursor, if_pos le_rfl]
        · rw [if_neg h2, ih fuel o st hfuel hcache']
          rw [claimFields, if_neg h1, if_neg h2, claimCursor,
            if_neg (by omega)]


theorem parseAdsSymbolEntry_none (data : List Nat) (h : data.length < 30) :
    parseAdsSymbolEntry data = none := by
  have h9 : readLE data 28 2 = none := by
    rw [readLE, if_neg (by omega)]
  rw [parseAdsSymbolEntry]
  split
  next heq1 heq2 heq3 heq4 heq5 heq6 heq7 heq8 heq9 =>
    rw [h9] at heq9
    exact Option.noConfusion heq9
  next => rfl

theorem parseAdsSymbolEntry_length (data : List Nat) (e : AdsSymbolEntry)
    (h : parseAdsSymbolEntry data = some e) : 30 ≤ data.length := by
  by_contra hlt
  rw [parseAdsSymbolEntry_none data (by omega)] at h
  exact Option.noConfusion h

theorem entryIterSym_zeroLength (data : List Nat) (fuel p : Nat)
    (hp : p < data.length) (hlen : readLE data p 4 = some 0) :
    entryIterSym data (fuel + 1) p = .failed [] := by
  rw [entryIterSym, if_pos hp]
  simp only [hlen]
  simp only [parseAdsSymbolEntry_none ((data.drop p).take 0) (by simp)]

theorem entryIterSym_truncated (data : List Nat) (fuel p length : Nat)
    (e : AdsSymbolEntry)
    (hp : p < data.length) (hlen : readLE data p 4 = some length)
    (hover : data.length < p + length)
    (hparse : parseAdsSymbolEntry ((data.drop p).take length) = some e) :
    entryIterSym data (fuel + 2) p = .done [e] := by
  rw [entryIterSym, if_pos hp]
  simp only [hlen, hparse]
  rw [show entryIterSym data (fuel + 1) (p + length) = .done [] from by
    rw [entryIterSym, if_neg (by omega)]]
  rfl

theorem entryIterSym_terminates (data : List Nat) :
    ∀ fuel p : Nat, data.length + 1 ≤ fuel + p → 1 ≤ fuel →
      (entryIterSym data fuel p).isStillRunning = false := by
  intro fuel
  induction fuel with
  | zero => intro p h h1; omega
  | succ fuel ih =>
    intro p h _
    rw [entryIterSym]
    by_cases hp : p < data.length
    · rw [if_pos hp]
      cases hlen : readLE data p 4 with
      | none => rfl
      | some length =>
        simp only [hlen]
        cases hparse : parseAdsSymbolEntry ((data.drop p).take length) with
        | none => simp only [hparse]; rfl
        | some e =>
          simp only [hparse]
          have h30 : 30 ≤ ((data.drop p).take length).length :=
            parseAdsSymbolEntry_length _ _ hparse
          have hlen30 : 30 ≤ length := by
            simp only [List.length_take, List.length_drop] at h30
            omega
          have hrec := ih (p + length) (by omega) (by omega)
          cases hout : entryIterSym data fuel (p + length) with
          | done es => simp [hout, IterOutcome.push, IterOutcome.isStillRunning]
          | failed es => simp [hout, IterOutcome.push, IterOutcome.isStillRunning]
          | stillRunning es =>
            rw [hout] at hrec
            exact absurd hrec (by simp [IterOutcome.isStillRunning])
    · rw [if_neg hp]
      rfl

/-! ## The claims -/

/-- C1: for every Variable whose datatype record has array dimensions and
a non-empty element type reference, indexing with an in-range tuple
returns a child Variable whose byte offset equals the parent's offset
plus `elementSize` times the row-major linear index (sum over dimensions
of `(i_d - l_d)` times the product of the element counts of all inner
dimensions), where `elementSize` is the declared size divided by the
product of all dimension element counts (the code asserts this division
is exact, as the spec requires). -/
theorem claimC1 (d : AdsDatatypeEntry) (po : Int) (idx : List Int)
    (hdims : d.array ≠ []) (htype : d.typeRef ≠ "")
    (hlen : idx.length = d.array.length)
    (hrange : ∀ p ∈ idx.zip d.array, p.2.1 ≤ p.1 ∧ p.1 < p.2.1 + (p.2.2 : Int))
    (hdvd : prodCounts d.array ∣ d.size) :
    varGetitem d po idx = .ok ⟨fmtIdx idx, .byName d.typeRef,
      po + ((d.size / prodCounts d.array : Nat) : Int) *
        rowMajorSum (idx.zip d.array)⟩ :=
  varGetitem_ok d po idx hdims htype hlen hrange hdvd

/-- Witness for C1: the two-dimensional record `arr2Rec` (dimensions
`[(1,2),(0,3)]` over 2-byte `INT`) indexed at `(2,1)` from parent offset 5
yields the child at byte offset `5 + 2 * ((2-1)*3 + (1-0)) = 13`. -/
theorem claimC1_witness :
    varGetitem arr2Rec 5 [2, 1] = .ok ⟨"[2,1]", .byName "INT", 13⟩ :=
  claimC1 arr2Rec 5 [2, 1] (by decide) (by decide) (by decide) (by decide)
    (by decide)

/-- C7: indexed access on an array Variable with a non-empty element type
reference raises `IndexError` exactly when the index tuple's length
differs from the dimension count or some component is outside its
declared range; and on scenario 3 (`[(-2,4)]` over 1-byte `BYTE`, size 4)
indexing at -2 addresses byte offset 0, at 1 addresses byte offset 3, and
at 2 or -3 raises an out-of-range `IndexError`. -/
theorem claimC7 :
    (∀ (d : AdsDatatypeEntry) (po : Int) (idx : List Int),
      d.array ≠ [] → d.typeRef ≠ "" →
      (resIsIndexError (varGetitem d po idx) = true ↔
        idx.length ≠ d.array.length ∨
          ∃ p ∈ idx.zip d.array, p.1 < p.2.1 ∨ p.2.1 + (p.2.2 : Int) ≤ p.1)) ∧
    varGetitem scen3Rec 0 [-2] = .ok ⟨"[-2]", .byName "BYTE", 0⟩ ∧
    varGetitem scen3Rec 0 [1] = .ok ⟨"[1]", .byName "BYTE", 3⟩ ∧
    resIsIndexError (varGetitem scen3Rec 0 [2]) = true ∧
    resIsIndexError (varGetitem scen3Rec 0 [-3]) = true :=
  ⟨fun d po idx hdims _ => varGetitem_indexError_iff d po idx hdims,
    rfl, rfl, rfl, rfl⟩

/-- Witness for C7: the general equivalence applied to scenario 3 at the
out-of-range index 5. -/
theorem claimC7_witness :
    resIsIndexError (varGetitem scen3Rec 0 [5]) = true :=
  (claimC7.1 scen3Rec 0 [5] (by decide) (by decide)).mpr
    (Or.inr ⟨(5, (-2, 4)), by decide, by decide⟩)

/-- C8 counterexample: the claim quantifies over every `NonzeroBasedArray`
with lower bound `b` and length `n` and asserts that indexing at `b`
succeeds; for the (constructible) zero-length array with `b = 0`, `n = 0`,
indexing at `b` raises `IndexError` instead. -/
theorem claimC8_counterexample : nzGetScalar 0 0 0 = .error .indexError := rfl

/-- C8 as amended (length at least 1): indexing shifts by `-b`; `b` and
`b + n - 1` succeed at zero-based positions 0 and `n-1`; `b - 1` and
`b + n` raise `IndexError`; the slice `[b:b]` is empty; and
negative-from-the-end indexing is never applied: any index or slice bound
below `b` (negative after shifting) raises `IndexError` regardless of
whether from-the-end interpretation would be in range. -/
theorem claimC8 (b : Int) (n : Nat) (hn : 1 ≤ n) :
    nzGetScalar b n b = .ok 0 ∧
    nzGetScalar b n (b + (n : Int) - 1) = .ok (n - 1) ∧
    nzGetScalar b n (b - 1) = .error .indexError ∧
    nzGetScalar b n (b + (n : Int)) = .error .indexError ∧
    nzGetSlice b n (some b) (some b) = .ok [] ∧
    (∀ i : Int, i < b → nzGetScalar b n i = .error .indexError) ∧
    (∀ a? : Option Int, ∀ t : Int, t < b →
      nzGetSlice b n a? (some t) = .error .indexError) ∧
    (∀ a : Int, ∀ t? : Option Int, a < b →
      nzGetSlice b n (some a) t? = .error .indexError) := by
  refine ⟨?_, ?_, ?_, ?_, ?_, ?_, ?_, ?_⟩
  · rw [nzGetScalar_eval, if_neg (by omega), if_pos (by omega)]
    congr 1
    omega
  · rw [nzGetScalar_eval, if_neg (by omega), if_pos (by omega)]
    congr 1
    omega
  · exact nzGetScalar_tooLow b n _ (by omega)
  · exact nzGetScalar_tooHigh b n _ (by omega) (by omega)
  · rw [nzGetSlice, show convertIndexSlice b (some b) (some b) =
        .ok (some 0, some 0) from by
      rw [convertIndexSlice]
      simp
    ]
    simp
  · exact fun i hi => nzGetScalar_tooLow b n i (by omega)
  · intro a? t ht
    cases a? with
    | none =>
      rw [nzGetSlice, show convertIndexSlice b none (some t) =
          .error .indexError from by
        rw [convertIndexSlice]
        rw [if_pos (by omega)]]
    | some a =>
      by_cases ha : a - b < 0
      · rw [nzGetSlice, show convertIndexSlice b (some a) (some t) =
            .error .indexError from by
          rw [convertIndexSlice]
          rw [if_pos ha]]
      · rw [nzGetSlice, show convertIndexSlice b (some a) (some t) =
            .error .indexError from by
          rw [convertIndexSlice]
          rw [if_neg ha, if_pos (by omega)]]
  · intro a t? ha
    cases t? with
    | none =>
      rw [nzGetSlice, show convertIndexSlice b (some a) none =
          .error .indexError from by
        rw [convertIndexSlice]
        rw [if_pos (by omega)]]
    | some t =>
      rw [nzGetSlice, show convertIndexSlice b (some a) (some t) =
          .error .indexError from by
        rw [convertIndexSlice]
        rw [if_pos (by omega)]]

/-- Witness for C8: the amended claim at `b = -2`, `n = 4`. -/
theorem claimC8_witness :
    nzGetScalar (-2) 4 (-2) = .ok 0 ∧ nzGetScalar (-2) 4 1 = .ok 3 ∧
    nzGetScalar (-2) 4 (-3) = .error .indexError ∧
    nzGetScalar (-2) 4 2 = .error .indexError ∧
    nzGetSlice (-2) 4 (some (-2)) (some (-2)) = .ok [] := by
  obtain ⟨h1, h2, h3, h4, h5, -, -, -⟩ := claimC8 (-2) 4 (by decide)
  exact ⟨h1, h2, h3, h4, h5⟩

/-- C9: iterating a `NonzeroBasedArray` with lower bound `b` and length
`n` yields exactly the `n` elements at logical indices `b, ..., b+n-1`
(zero-based positions `0, ..., n-1`) in increasing order, and the
iteration then terminates (the generator exits via the explicit
`StopIteration`, the normal-exit idiom of the Python 3.6 generator
semantics the package declares; `n + 1` loop steps suffice, and the
`true` flag records that the loop ended by itself). -/
theorem claimC9 (b : Int) (n : Nat) :
    nzIter b n (n + 1) b = (List.range n, true) := by
  have h := nzIter_from b n n 0 (by omega)
  simpa [List.range_eq_range'] using h

/-- C2 counterexample: the claim says `Entry.iter` fails with
`MalformedRecordError` on a zero or over-long declared record length and
"neither loops forever nor yields a truncated record".  No such error
exists in the code: on the blob `[0,0,0,0]` (declared length 0) the
iteration fails with the fixed-header `struct.error` of the entry
constructor applied to the empty slice — not a record-length check — and
on the 30-byte blob whose record declares length 100 the iteration
silently yields one record parsed from the truncated bytes and then
terminates without any error. -/
theorem claimC2_counterexample :
    entryIterSym c2zeroBlob 5 0 = .failed [] ∧
    entryIterSym c2overBlob 5 0 = .done [c2overRec] ∧
    c2overRec.entryLength = 100 ∧ c2overBlob.length = 30 :=
  ⟨rfl, rfl, rfl, rfl⟩

/-- C2 as amended: `Entry.iter` performs no record-length validation and
no `MalformedRecordError` exists.  (1) A record declaring length 0 fails
the iteration when reached, because the zero-byte slice cannot supply the
fixed header (`struct.error`), so the loop does not run forever there;
(2) more generally the loop never runs forever: every yielded record
advances the cursor by its declared length, which must be at least the
30-byte fixed header for the construction to succeed, so
`data.length + 1` steps always finish; (3) a declared length extending
past the blob end is not detected: when the truncated slice still parses,
the truncated record is yielded and the iteration then terminates
normally. -/
theorem claimC2 :
    (∀ (data : List Nat) (fuel p : Nat), p < data.length →
      readLE data p 4 = some 0 →
      entryIterSym data (fuel + 1) p = .failed []) ∧
    (∀ (data : List Nat) (fuel p : Nat), data.length + 1 ≤ fuel + p →
      1 ≤ fuel → (entryIterSym data fuel p).isStillRunning = false) ∧
    (∀ (data : List Nat) (fuel p length : Nat) (e : AdsSymbolEntry),
      p < data.length → readLE data p 4 = some length →
      data.length < p + length →
      parseAdsSymbolEntry ((data.drop p).take length) = some e →
      entryIterSym data (fuel + 2) p = .done [e]) :=
  ⟨entryIterSym_zeroLength, fun data => entryIterSym_terminates data,
    entryIterSym_truncated⟩

/-- Witness for C2: the zero-length blob fails at any fuel, and the
over-long blob's iteration is finished after 31 steps. -/
theorem claimC2_witness :
    entryIterSym c2zeroBlob 7 0 = .failed [] ∧
    (entryIterSym c2overBlob 31 0).isStillRunning = false ∧
    entryIterSym c2overBlob 5 0 = .done [c2overRec] := by
  refine ⟨claimC2.1 c2zeroBlob 6 0 (by decide) (by decide),
    claimC2.2.1 c2overBlob 31 0 (by decide) (by decide),
    claimC2.2.2 c2overBlob 3 0 100 c2overRec (by decide) (by decide)
      (by decide) ?_⟩
  decide

/-- C10 counterexample: the claim says iterating a Variable whose
datatype record has no array dimensions and no sub-items (such as a
pointer type) must fail with `NotIterableError` rather than yield an
empty sequence; the code's `__iter__` falls through both branches and
yields an empty sequence with no error. -/
theorem claimC10_counterexample :
    varIter (some ptrRec) 0 = .ok ([] : List (String × ChildVar)) := rfl

/-- C10 as amended: iterating a Variable with no datatype record (a basic
or unknown type) fails with `NotIterableError` (`TypeError`); an array
Variable (non-empty element type reference, exactly divisible size)
yields `(indexString, child)` pairs for every coordinate combination in
row-major order with the row-major byte offsets; a structure Variable
(with distinct member names, as in well-formed blobs) yields
`(fieldName, child)` pairs in declared order with offsets shifted by the
parent offset; and a Variable whose datatype has neither dimensions nor
sub-items yields the empty sequence rather than failing. -/
theorem claimC10 :
    (∀ po : Int, varIter none po = .error .notIterable) ∧
    (∀ (d : AdsDatatypeEntry) (po : Int), d.array ≠ [] → d.typeRef ≠ "" →
      prodCounts d.array ∣ d.size →
      varIter (some d) po = .ok ((prodDims d.array).map (fun idx =>
        (fmtIdx idx, ⟨fmtIdx idx, .byName d.typeRef,
          po + ((d.size / prodCounts d.array : Nat) : Int) *
            rowMajorSum (idx.zip d.array)⟩)))) ∧
    (∀ (d : AdsDatatypeEntry) (po : Int), d.array = [] → d.subItems ≠ [] →
      (d.subItems.map AdsDatatypeEntry.name).Nodup →
      varIter (some d) po = .ok (d.subItems.map (fun s =>
        (s.name, ⟨s.name,
          if s.typeRef ≠ "" then .byName s.typeRef else .byEntry s,
          (s.offs : Int) + po⟩)))) ∧
    (∀ (d : AdsDatatypeEntry) (po : Int), d.array = [] → d.subItems = [] →
      varIter (some d) po = .ok []) := by
  refine ⟨fun po => rfl, ?_, ?_, ?_⟩
  · intro d po hdims htype hdvd
    rw [show varIter (some d) po = exMap (fun idx =>
        match varGetitem d po idx with
        | .error e => .error e
        | .ok child => .ok (fmtIdx idx, child)) (prodDims d.array) from by
      rw [varIter, if_pos (by simpa [List.isEmpty_iff] using hdims)]]
    refine exMap_ok _ _ _ (fun idx hidx => ?_)
    obtain ⟨hlen, hrange⟩ := prodDims_mem _ _ hidx
    simp only [varGetitem_ok d po idx hdims htype hlen hrange hdvd]
  · intro d po hdims hsubs hnd
    rw [show varIter (some d) po = exMap (fun nm =>
        match varGetattr d po nm with
        | .error e => .error e
        | .ok child => .ok (nm, child))
          (d.subItems.map AdsDatatypeEntry.name) from by
      rw [varIter, if_neg (by simp [hdims]),
        if_pos (by simpa [List.isEmpty_iff] using hsubs)]]
    refine exMap_map_ok _ _ _ _ (fun s hs => ?_)
    rw [show varGetattr d po s.name = .ok ⟨s.name,
        if s.typeRef ≠ "" then .byName s.typeRef else .byEntry s,
        (s.offs : Int) + po⟩ from by
      rw [varGetattr, lookupSub_self d.subItems hnd s hs]]
  · intro d po h1 h2
    rw [varIter, if_neg (by simp [h1]), if_neg (by simp [h2])]

/-- Witness for C10: the amended claim evaluated on scenario 3's array
record, on a two-member structure, and on the pointer-like record. -/
theorem claimC10_witness :
    varIter (some scen3Rec) 0 = .ok [
      ("[-2]", ⟨"[-2]", .byName "BYTE", 0⟩),
      ("[-1]", ⟨"[-1]", .byName "BYTE", 1⟩),
      ("[0]", ⟨"[0]", .byName "BYTE", 2⟩),
      ("[1]", ⟨"[1]", .byName "BYTE", 3⟩)] ∧
    varIter (some c6Rec) 7 = .ok [
      ("a", ⟨"a", .byName "DWORD", 7⟩),
      ("b", ⟨"b", .byName "DWORD", 15⟩)] ∧
    varIter none 0 = .error .notIterable := by
  refine ⟨?_, ?_, claimC10.1 0⟩
  · exact claimC10.2.1 scen3Rec 0 (by decide) (by decide) (by decide)
  · exact claimC10.2.2.1 c6Rec 7 (by decide) (List.cons_ne_nil _ _) (by decide)

/-- C3 counterexample: the claim says every name in the data-type table
resolves to a layout of the declared size and synthesis never fails.  Both
parts fail on the code: the early cache-hit return skips the size check,
so the table record named `INT` declaring size 4 resolves to the seeded
2-byte primitive; and the record `BADARR` (size 4 over 3 elements) makes
the `assert remainder == 0` fail, aborting synthesis with
`AssertionError` instead of substituting an Opaque layout. -/
theorem claimC3_counterexample :
    getCtype fixDtypes 5 st0 "INT" none =
      .ok (some (.prim "c_int16" 2 2), st0) ∧
    lookupA fixDtypes "INT" = some c3intRec ∧
    c3intRec.size = 4 ∧ sizeofC (.prim "c_int16" 2 2) = 2 ∧
    getCtype fixDtypes 5 st0 "BADARR" none = .error .assertErr :=
  ⟨rfl, rfl, rfl, rfl, rfl⟩

/-- C3 as amended: for every type name that is not already cached
(seeded primitives and previously synthesized names bypass the check),
does not match the fixed-string pattern, is present in the table, and for
which synthesis completes successfully, the byte size of the returned
layout equals the record's declared size — the final size check replaces
any mismatching layout by a `Dummy` of exactly the declared size.
(Synthesis itself can still fail, e.g. with `AssertionError` on a
non-divisible array size; see C5.) -/
theorem claimC3 (dtypes : List (String × AdsDatatypeEntry)) (fuel : Nat)
    (st : St) (nm : String) (hint : Option Nat) (d : AdsDatatypeEntry)
    (c : Ctype) (st' : St)
    (h1 : lookupA st.ctypes nm = none) (h2 : plcStringMatch nm = none)
    (h3 : lookupA dtypes nm = some d)
    (hok : getCtype dtypes fuel st nm hint = .ok (some c, st')) :
    sizeofC c = d.size :=
  getCtype_size dtypes fuel st nm hint d c st' h1 h2 h3 hok

/-- Witness for C3: synthesizing `GOODARR` (4 bytes over `BYTE` with one
dimension of 4) yields a layout whose size equals the declared 4. -/
theorem claimC3_witness : sizeofC goodArrCt = goodArrRec.size :=
  claimC3 fixDtypes 5 st0 "GOODARR" none goodArrRec goodArrCt st1
    rfl rfl rfl rfl

/-- C4 counterexample: the claim says the Opaque (dummy) layout
synthesized for an unknown name with a known expected size is memoized
like any other result; the code's early `return` bypasses the memoization
line, so the call returns the dummy layout with the memo table unchanged
(`"FOO"` is still absent), and a repeated call re-synthesizes a fresh
dummy class. -/
theorem claimC4_counterexample :
    getCtype fixDtypes 5 st0 "FOO" (some 7) = .ok (some (.dummy 7), st0) ∧
    lookupA st0.ctypes "FOO" = none :=
  ⟨rfl, rfl⟩

/-- C4 as amended: `getCtype` is memoized for cached names and for names
resolved through the string pattern or the type table — a cached name is
returned unchanged with no synthesis work, and a successful synthesis of
a string-pattern or table name stores exactly the returned layout, so a
second call is a cache hit returning the identical result with no state
change.  The dummy layout for an unknown name with a size hint is the
exception: it is returned without being memoized (see the
counterexample). -/
theorem claimC4 :
    (∀ (dtypes : List (String × AdsDatatypeEntry)) (fuel : Nat) (st : St)
      (nm : String) (hint : Option Nat) (c : Ctype),
      lookupA st.ctypes nm = some c →
      getCtype dtypes (fuel + 1) st nm hint = .ok (some c, st)) ∧
    (∀ (dtypes : List (String × AdsDatatypeEntry)) (fuel : Nat) (st : St)
      (nm : String) (hint : Option Nat) (c : Ctype) (st' : St),
      lookupA st.ctypes nm = none →
      (plcStringMatch nm ≠ none ∨ lookupA dtypes nm ≠ none) →
      getCtype dtypes fuel st nm hint = .ok (some c, st') →
      lookupA st'.ctypes nm = some c ∧
        ∀ (fuel₂ : Nat) (hint₂ : Option Nat),
          getCtype dtypes (fuel₂ + 1) st' nm hint₂ = .ok (some c, st')) := by
  refine ⟨getCtype_cacheHit, ?_⟩
  intro dtypes fuel st nm hint c st' h1 h2 hok
  have hmem := getCtype_memoized dtypes fuel st nm hint c st' h1 h2 hok
  exact ⟨hmem, fun fuel₂ hint₂ =>
    getCtype_cacheHit dtypes fuel₂ st' nm hint₂ c hmem⟩

/-- Witness for C4: after synthesizing `GOODARR` once (state `st1`), a
second call with different fuel and hint is a cache hit returning the
identical layout and leaving the state unchanged. -/
theorem claimC4_witness :
    getCtype fixDtypes 9 st1 "GOODARR" (some 4) = .ok (some goodArrCt, st1) := by
  have h := (claimC4.2 fixDtypes 5 st0 "GOODARR" none goodArrCt st1 rfl
    (Or.inr (fun hcontra => Option.noConfusion
      ((show lookupA fixDtypes "GOODARR" = some goodArrRec from rfl) ▸ hcontra)))
    rfl).2 8 (some 4)
  exact h

/-- C5 counterexample: the claim says synthesis of an alias/array record
whose declared size is not an exact multiple of its element-count product
does not throw and falls back to an Opaque layout of the declared size;
the code's `assert remainder == 0` makes `getCtype` raise
`AssertionError` on `BADARR` (size 4, element-count product 3) instead. -/
theorem claimC5_counterexample :
    getCtype fixDtypes 5 st0 "BADARR" none = .error .assertErr ∧
    lookupA fixDtypes "BADARR" = some badArrRec ∧
    badArrRec.size = 4 ∧ arrProd badArrRec.array = 3 :=
  ⟨rfl, rfl, rfl, rfl⟩

/-- C5 as amended: (1) for every uncached, non-string-pattern name whose
table record is an alias/array (non-empty type reference, no sub-items,
not a pointer) with a nonzero element-count product that does not divide
the declared size, `getCtype` fails with `AssertionError` — it does not
fall back to an Opaque layout; (2) `getCtype` returns `None` (the code's
signal for an unknown type, the spec's `UnknownTypeError`) exactly on the
path where the name is absent from the cache, does not match the string
pattern, is absent from the table, and no size hint exists — and then the
state is unchanged. -/
theorem claimC5 :
    (∀ (dtypes : List (String × AdsDatatypeEntry)) (fuel : Nat) (st : St)
      (nm : String) (hint : Option Nat) (d : AdsDatatypeEntry),
      lookupA st.ctypes nm = none → plcStringMatch nm = none →
      lookupA dtypes nm = some d →
      strStartsWith d.name "POINTER TO " = false →
      d.typeRef ≠ "" → d.subItems = [] →
      arrProd d.array ≠ 0 → d.size % arrProd d.array ≠ 0 →
      getCtype dtypes (fuel + 1) st nm hint = .error .assertErr) ∧
    (∀ (dtypes : List (String × AdsDatatypeEntry)) (fuel : Nat) (st : St)
      (nm : String) (hint : Option Nat) (st' : St),
      getCtype dtypes (fuel + 1) st nm hint = .ok (none, st') →
      lookupA st.ctypes nm = none ∧ plcStringMatch nm = none ∧
        lookupA dtypes nm = none ∧ hint = none ∧ st' = st) :=
  ⟨getCtype_assertRemainder, getCtype_none_char⟩

/-- Witness for C5: the assertion failure on `BADARR`, and the `None`
return for the unknown name `FOO` with no size hint. -/
theorem claimC5_witness :
    getCtype fixDtypes 5 st0 "BADARR" none = .error .assertErr ∧
    lookupA fixDtypes "FOO" = none := by
  refine ⟨claimC5.1 fixDtypes 4 st0 "BADARR" none badArrRec rfl rfl rfl rfl
    (by decide) rfl (by decide) (by decide), ?_⟩
  exact (claimC5.2 fixDtypes 4 st0 "FOO" none st0 rfl).2.2.1

/-- C6: structure synthesis walks the members in declared order with a
byte cursor from 0; a member whose offset exceeds the cursor gets an
anonymous padding field of exactly the gap inserted before it, a member
at the cursor becomes a named field advancing the cursor by its declared
size, a member below the cursor is skipped (warning only), and the loop
refines the claim-side cursor description `claimFields`/`claimCursor`
verbatim whenever the member types are resolvable from the cache.  In
particular scenario 2 (two 4-byte members at offsets 0 and 8, declared
size 12) synthesizes exactly one 4-byte anonymous padding field between
the members and no trailing padding (the trailing-pad branch is not
taken since the cursor reaches 12). -/
theorem claimC6 :
    (∀ (dtypes : List (String × AdsDatatypeEntry))
      (f : AdsDatatypeEntry → Ctype) (subs : List AdsDatatypeEntry)
      (fuel o : Nat) (st : St),
      subs.length < fuel →
      (∀ s ∈ subs, lookupA st.ctypes s.typeRef = some (f s)) →
      structFieldsLoop dtypes fuel subs o st =
        .ok (claimFields f subs o, claimCursor subs o, st)) ∧
    getCtype c6dtypes 5 st0 "S2" none =
      .ok (some (.cstruct "S2" c6Fields),
        ⟨insertA st0.ctypes "S2" (.cstruct "S2" c6Fields)⟩) :=
  ⟨fun dtypes f subs fuel o st =>
    structFieldsLoop_spec dtypes f subs fuel o st, rfl⟩

/-- Witness for C6: the general loop refinement evaluated on scenario 2's
members resolves to exactly the member-pad-member field list with final
cursor 12 and unchanged state. -/
theorem claimC6_witness :
    structFieldsLoop c6dtypes 5 c6Rec.subItems 0 st0 =
      .ok (c6Fields, 12, st0) := by
  have h := claimC6.1 c6dtypes (fun _ => .prim "c_int32" 4 4)
    c6Rec.subItems 5 0 st0 (by decide)
    (by intro s hs; fin_cases hs <;> rfl)
  exact h
